import Mathlib

/-!
Verification of `eeg_eyetracking_parser/_parsing.py` against its specification.

The Python module reads EEG, eye-tracking and behavioral data for one subject
and merges the eye-tracking data into the EEG artifact (gaze/pupil channels
plus BAD_BLINK / BAD_SACCADE intervals).  This file shallowly embeds the
module: the external readers (mne, eyelinkparser, pandas) are collaborators
supplying well-typed in-memory tables, so their outputs are inputs of the
embedded functions.  Machine floats are idealized as `NaN + rationals`
(the `Val` type below); in-place mutation of the EEG artifact and of the
`eye_kwargs` dictionary is embedded as explicit state passing; Python
exceptions (IndexError, ValueError, TypeError, AssertionError) are embedded
as `Except PyErr`.
-/

/-- An IEEE-754-like scalar: either NaN or a finite value (idealized as a
rational).  Arithmetic propagates NaN; comparisons involving NaN are false,
exactly as in numpy. -/
inductive Val where
  | nan : Val
  | fin : ℚ → Val
deriving DecidableEq, Repr

/-- `np.isnan`. -/
def Val.isnan : Val → Bool
  | .nan => true
  | .fin _ => false

/-- Float addition with NaN propagation. -/
def Val.add : Val → Val → Val
  | .fin a, .fin b => .fin (a + b)
  | _, _ => .nan

/-- Float subtraction with NaN propagation. -/
def Val.sub : Val → Val → Val
  | .fin a, .fin b => .fin (a - b)
  | _, _ => .nan

/-- Float multiplication with NaN propagation. -/
def Val.mul : Val → Val → Val
  | .fin a, .fin b => .fin (a * b)
  | _, _ => .nan

/-- Division of a float by a nonzero literal (used for the `/ 1000`
millisecond-to-second conversions); NaN propagates. -/
def Val.divQ : Val → ℚ → Val
  | .nan, _ => .nan
  | .fin a, d => .fin (a / d)

/-- Float `<` comparison: any comparison with NaN is false, as in numpy. -/
def Val.ltB : Val → Val → Bool
  | .fin a, .fin b => decide (a < b)
  | _, _ => false

/-- One row of the `events[0]` array produced by
`mne.events_from_annotations`: `(timestamp, 0, code)` with the timestamp an
integer sample index. -/
structure Trigger where
  timestamp : ℤ
  zeroField : ℤ
  code : ℤ
deriving DecidableEq, Repr

/-- One row of the summary eye-tracking DataMatrix `dm` returned by
`_read_eye_data` (parsed with `maxtracelen=1`).  Only the columns read by
`_parsing.py` are modelled: `t_onset_1` (the absolute eye-tracker timestamp
of the onset of phase 1, the trial's second boundary) and the `eye_offset`
column created by the merge (absent before the merge, modelled as the NaN
default).  The depth-1 series columns that `_dm_to_metadata` strips are not
read by the parsing module and are not modelled. -/
structure DmRow where
  t_onset_1 : Val
  eye_offset : Val := Val.nan
deriving DecidableEq, Repr

/-- One row of the full-resolution eye-tracking DataMatrix `bigdm` parsed
inside `_merge_eye_and_eeg_data` (phase filter `trial`, no downsampling).
The series-column cells are lists of floats; DataMatrix pads every cell of a
series column to the column's common depth with NaN. -/
structure BigRow where
  ttrace_trial : List Val
  xtrace_trial : List Val
  ytrace_trial : List Val
  ptrace_trial : List Val
  blinkstlist_trial : List Val
  blinketlist_trial : List Val
  fixstlist_trial : List Val
  fixetlist_trial : List Val
  fixxlist_trial : List Val
  fixylist_trial : List Val
  eye_offset : Val := Val.nan
deriving DecidableEq, Repr

/-- One mne annotation interval: onset and duration in seconds plus a
descriptive label. -/
structure Ann where
  onset : Val
  duration : Val
  description : String
deriving DecidableEq, Repr

/-- One data channel of the EEG artifact, as created by `mne.create_info` /
`mne.io.RawArray`: name, channel type, sampling frequency and sample data. -/
structure Channel where
  name : String
  chType : String
  sfreq : ℚ
  data : List Val
deriving DecidableEq, Repr

/-- The mutable EEG artifact (`mne.io.Raw`): its length in samples
(`len(raw)`), its sampling frequency (`raw.info['sfreq']`), its channels and
its annotation intervals. -/
structure Raw where
  n_samples : ℕ
  sfreq : ℚ
  channels : List Channel
  anns : List Ann
deriving DecidableEq, Repr

/-- A value stored in the `eye_kwargs` dictionary.  The merge only ever
inspects and inserts the `traceprocessor` entry; `defaultProc b m` models
`defaulttraceprocessor(blinkreconstruct=b, mode=m)`, and `custom` models any
caller-supplied entry. -/
inductive TraceProc where
  | defaultProc : Bool → String → TraceProc
  | custom : String → TraceProc
deriving DecidableEq, Repr

/-- The `eye_kwargs` dictionary, embedded as an association list. -/
abbrev EyeKwargs := List (String × TraceProc)

/-- The behavioral table loaded from the `.csv` file (rows of named string
cells); `_parsing.py` never inspects its contents. -/
abbrev BehTable := List (List (String × String))

/-- The metadata returned by `read_subject`: either the behavioral table or
the eye-tracking DataMatrix stripped of its series columns
(`_dm_to_metadata`). -/
inductive Metadata where
  | fromBeh : BehTable → Metadata
  | fromDm : List DmRow → Metadata
deriving DecidableEq, Repr

/-- The Python exceptions that the embedded code can raise. -/
inductive PyErr where
  | indexError
  | valueError
  | typeError
  | attributeError
  | assertionError
deriving DecidableEq, Repr

/-- Modelled from the spec: `trial_trigger` is imported from the
repository's `_triggers` module, which is not included under `src/`.  Per
the spec's data model, codes ≥ 128 denote trial-onset markers, and the merge
iterates over the trial-onset triggers in order; so `trial_trigger` yields
the events whose code is at least 128. -/
def trial_trigger (events : List Trigger) : List Trigger :=
  events.filter (fun t => decide (128 ≤ t.code))

/-- `np.where(triggers[:, 2] >= 128)[0]` starting from index `j`: the
indices of the trial-onset triggers. -/
def npWhereOnsetsAux : ℕ → List Trigger → List ℕ
  | _, [] => []
  | j, t :: ts =>
    if 128 ≤ t.code then j :: npWhereOnsetsAux (j + 1) ts
    else npWhereOnsetsAux (j + 1) ts

/-- `np.where(triggers[:, 2] >= 128)[0]`. -/
def npWhereOnsets (events : List Trigger) : List ℕ :=
  npWhereOnsetsAux 0 events

/-- One iteration of the offset loop of `_merge_eye_and_eeg_data` (trial
index `i`): `eye_t0 = bigrow.ttrace_trial[0]` (IndexError on an empty
trace), `eye_t1 = row.t_onset_1 - eye_t0`,
`trigger_index = np.where(triggers[:, 2] >= 128)[0][i]` (IndexError when
there is no `i`-th onset), `eeg_t0, eeg_t1 = triggers[trigger_index :
trigger_index + 2][:, 0]` (ValueError when the slice has fewer than two
rows), and finally `eye_offset = (eeg_t1 - eeg_t0) - eye_t1`. -/
def offsetStep (events : List Trigger) (row : DmRow) (bigrow : BigRow)
    (i : ℕ) : Except PyErr Val :=
  match bigrow.ttrace_trial.head? with
  | none => .error .indexError
  | some eye_t0 =>
    let eye_t1 := row.t_onset_1.sub eye_t0
    match (npWhereOnsets events).get? i with
    | none => .error .indexError
    | some ti =>
      match events.get? ti, events.get? (ti + 1) with
      | some e0, some e1 =>
        .ok ((Val.fin ((e1.timestamp - e0.timestamp : ℤ) : ℚ)).sub eye_t1)
      | _, _ => .error .valueError

/-- The offset loop `for i, (row, bigrow) in enumerate(zip(dm, bigdm))`,
started at trial index `i`.  It returns the updated `bigdm` rows (each with
its own `eye_offset` set) together with the offset of the last processed
trial, which is what the repeated whole-column assignment
`dm.eye_offset = eye_offset` leaves on `dm`. -/
def offsetLoop (events : List Trigger) (i : ℕ) :
    List (DmRow × BigRow) → Except PyErr (List BigRow × Option Val)
  | [] => .ok ([], none)
  | (row, bigrow) :: rest => do
    let off ← offsetStep events row bigrow i
    let (brs, last) ← offsetLoop events (i + 1) rest
    .ok ({ bigrow with eye_offset := off } :: brs, some (last.getD off))

/-- The whole offset phase of the merge: run the loop over `zip(dm, bigdm)`
(`zip` truncates to the shorter list, leaving later `bigdm` rows untouched).
The loop is followed by
`logger.info(f'trial offset (eye - eeg): {dm.eye_offset.mean}')`, whose
f-string argument is evaluated eagerly: when the loop ran zero iterations
(empty `dm` or empty `bigdm`), the `eye_offset` column was never created on
`dm` and the read raises AttributeError.  When the loop ran at least once,
the repeated whole-column assignment `dm.eye_offset = eye_offset` leaves
every cell of the column at the scalar assigned last. -/
def offsetPhase (events : List Trigger) (dm : List DmRow)
    (bigdm : List BigRow) : Except PyErr (List DmRow × List BigRow) := do
  let (upd, last) ← offsetLoop events 0 (dm.zip bigdm)
  match last with
  | none => .error .attributeError
  | some v =>
    .ok (dm.map (fun r => { r with eye_offset := v }), upd ++ bigdm.drop upd.length)

/-- Clamp one bound of a Python slice of a length-`n` sequence: a negative
bound counts from the end (clamped below at 0), a nonnegative bound is
clamped above at `n`. -/
def pyBound (n : ℕ) (i : ℤ) : ℕ :=
  if i < 0 then ((n : ℤ) + i).toNat else min i.toNat n

/-- The numpy slice assignment `xs[a:b] = src`: the slice bounds are clamped
Python-style; the assignment succeeds when `src` has exactly the slice's
length, or broadcasts when `src` has length 1; any other length raises
ValueError ("could not broadcast"). -/
def pySliceAssign (xs : List Val) (a b : ℤ) (src : List Val) :
    Except PyErr (List Val) :=
  let s := pyBound xs.length a
  let e := max s (pyBound xs.length b)
  if src.length = e - s then .ok (xs.take s ++ src ++ xs.drop e)
  else if src.length = 1 then
    .ok (xs.take s ++ List.replicate (e - s) (src.headD Val.nan) ++ xs.drop e)
  else .error .valueError

/-- Using a float as a slice index: numpy raises TypeError for a
non-integral index; an integer-valued offset is modelled as an exact
integer. -/
def Val.toSliceIdx : Val → Option ℤ
  | .nan => none
  | .fin q => if q.den = 1 then some q.num else none

/-- `bigdm.ptrace_trial.depth`: the common depth of the series column.
DataMatrix pads all cells of a series column to one shared depth, so the
depth is that of the first row (0 for an empty DataMatrix). -/
def trialdepth (rows : List BigRow) : ℕ :=
  (rows.head?.map (fun r => r.ptrace_trial.length)).getD 0

/-- The channel-filling loop
`for (timestamp, _, code), row in zip(trial_trigger(events), bigdm)`:
shift the trigger timestamp by the row's `eye_offset` and write the trial's
x, y and pupil traces into the three buffers at
`[timestamp : timestamp + trialdepth]`. -/
def channelLoop (depth : ℕ) :
    List Trigger → List BigRow → List Val → List Val → List Val →
    Except PyErr (List Val × List Val × List Val)
  | t :: ts, r :: rs, d0, d1, d2 =>
    match ((Val.fin (t.timestamp : ℚ)).add r.eye_offset).toSliceIdx with
    | none => .error .typeError
    | some ti => do
      let d0a ← pySliceAssign d0 ti (ti + depth) r.xtrace_trial
      let d1a ← pySliceAssign d1 ti (ti + depth) r.ytrace_trial
      let d2a ← pySliceAssign d2 ti (ti + depth) r.ptrace_trial
      channelLoop depth ts rs d0a d1a d2a
  | _, _, d0, d1, d2 => .ok (d0, d1, d2)

/-- Insert a rational into a sorted list (ascending). -/
def insertSorted (q : ℚ) : List ℚ → List ℚ
  | [] => [q]
  | x :: xs => if q ≤ x then q :: x :: xs else x :: insertSorted q xs

/-- Insertion sort (ascending) of a list of rationals. -/
def sortQ : List ℚ → List ℚ
  | [] => []
  | x :: xs => insertSorted x (sortQ xs)

/-- `np.nanmedian`: the median of the finite entries (midpoint of the two
middle entries for an even count), or NaN when no finite entry exists. -/
def nanmedian (xs : List Val) : Val :=
  let fs := xs.filterMap (fun v => match v with | .fin q => some q | .nan => none)
  let s := sortQ fs
  if s.length = 0 then Val.nan
  else if s.length % 2 = 1 then Val.fin ((s.get? (s.length / 2)).getD 0)
  else Val.fin ((((s.get? (s.length / 2 - 1)).getD 0) + ((s.get? (s.length / 2)).getD 0)) / 2)

/-- `data[c, np.isnan(data[c])] = np.nanmedian(data[c])`: replace every NaN
entry by the channel's nanmedian (computed before the assignment, hence over
the written samples only). -/
def fillNan (xs : List Val) : List Val :=
  let m := nanmedian xs
  xs.map (fun v => if v.isnan then m else v)

/-- `raw.add_channels([tmp])` where `tmp = mne.io.RawArray(data, info)` and
`info = mne.create_info(['GazeX', 'GazeY', 'PupilSize'], raw.info['sfreq'],
'misc')`: append the three synthesized channels at the artifact's own
sampling rate. -/
def Raw.add_channels3 (raw : Raw) (c0 c1 c2 : List Val) : Raw :=
  { raw with channels := raw.channels ++
      [⟨"GazeX", "misc", raw.sfreq, c0⟩,
       ⟨"GazeY", "misc", raw.sfreq, c1⟩,
       ⟨"PupilSize", "misc", raw.sfreq, c2⟩] }

/-- The blink loop of one trial:
`for st, et in zip(row.blinkstlist_trial, row.blinketlist_trial)`.
`tsOff` is the trigger timestamp already shifted by the trial's
`eye_offset`, `t0` is `row.ttrace_trial[0]`.  The loop breaks when
`np.isnan(st)`, skips a blink when `et - st < min_blink_dur`, and otherwise
emits a `BAD_BLINK` with onset `(tsOff + (st - t0)) / 1000` and duration
`(et - st) / 1000`. -/
def blinkAnns (tsOff t0 : Val) (min_blink_dur : ℚ) :
    List (Val × Val) → List Ann
  | [] => []
  | (st, et) :: rest =>
    if st.isnan then []
    else
      let dur := et.sub st
      if dur.ltB (Val.fin min_blink_dur) then blinkAnns tsOff t0 min_blink_dur rest
      else
        { onset := (tsOff.add (st.sub t0)).divQ 1000,
          duration := dur.divQ 1000,
          description := "BAD_BLINK" } :: blinkAnns tsOff t0 min_blink_dur rest

/-- The saccade candidates of one trial: the zip of
`fixetlist[:-1], fixxlist[:-1], fixylist[:-1], fixstlist[1:], fixxlist[1:],
fixylist[1:]`, bound in the source to `st, sx, sy, et, ex, ey` — so a
candidate saccade starts at the end of fixation `n` and ends at the start of
fixation `n + 1`. -/
def saccCands (r : BigRow) :
    List (Val × Val × Val × Val × Val × Val) :=
  r.fixetlist_trial.dropLast.zip
    (r.fixxlist_trial.dropLast.zip
      (r.fixylist_trial.dropLast.zip
        ((r.fixstlist_trial.drop 1).zip
          ((r.fixxlist_trial.drop 1).zip (r.fixylist_trial.drop 1)))))

/-- Decide `q ** 0.5 < m` for `q` a sum of squares.  In the source the
saccade size is `((sx - ex) ** 2 + (sy - ey) ** 2) ** .5`, so a finite `q`
is necessarily nonnegative, and for `q ≥ 0` the float comparison
`sqrt q < m` holds exactly when `0 ≤ m ∧ q < m ^ 2`; a NaN size compares
false, as in numpy. -/
def sqrtLtB : Val → ℚ → Bool
  | .nan, _ => false
  | .fin q, m => decide (0 ≤ m ∧ q < m ^ 2)

/-- The saccade loop of one trial over the candidates of `saccCands`: break
when `np.isnan(et)` (the start of fixation `n + 1`), skip when
`et - st < min_sacc_dur`, skip when the Euclidean displacement between the
two fixation centers is `< min_sacc_size`, and otherwise emit a
`BAD_SACCADE` with onset `(tsOff + (st - t0)) / 1000` and duration
`(et - st) / 1000`. -/
def saccAnns (tsOff t0 : Val) (min_sacc_dur min_sacc_size : ℚ) :
    List (Val × Val × Val × Val × Val × Val) → List Ann
  | [] => []
  | (st, sx, sy, et, ex, ey) :: rest =>
    if et.isnan then []
    else
      let dur := et.sub st
      if dur.ltB (Val.fin min_sacc_dur) then
        saccAnns tsOff t0 min_sacc_dur min_sacc_size rest
      else
        let sizeSq := ((sx.sub ex).mul (sx.sub ex)).add ((sy.sub ey).mul (sy.sub ey))
        if sqrtLtB sizeSq min_sacc_size then
          saccAnns tsOff t0 min_sacc_dur min_sacc_size rest
        else
          { onset := (tsOff.add (st.sub t0)).divQ 1000,
            duration := dur.divQ 1000,
            description := "BAD_SACCADE" } :: saccAnns tsOff t0 min_sacc_dur min_sacc_size rest

/-- The annotation loop
`for (timestamp, _, code), row in zip(trial_trigger(events), bigdm)`:
per trial, shift the trigger timestamp by the row's `eye_offset`, read
`t0 = row.ttrace_trial[0]` (IndexError on an empty trace), then collect
the trial's blink and saccade intervals in order. -/
def annLoop (min_sacc_dur min_sacc_size min_blink_dur : ℚ) :
    List Trigger → List BigRow → Except PyErr (List Ann)
  | t :: ts, r :: rs =>
    match r.ttrace_trial.head? with
    | none => .error .indexError
    | some t0 => do
      let tsOff := (Val.fin (t.timestamp : ℚ)).add r.eye_offset
      let rest ← annLoop min_sacc_dur min_sacc_size min_blink_dur ts rs
      .ok (blinkAnns tsOff t0 min_blink_dur
             (r.blinkstlist_trial.zip r.blinketlist_trial) ++
           saccAnns tsOff t0 min_sacc_dur min_sacc_size (saccCands r) ++ rest)
  | _, _ => .ok []

/-- `if 'traceprocessor' not in eye_kwargs: eye_kwargs['traceprocessor'] =
defaulttraceprocessor(blinkreconstruct=True, mode='advanced')` — this
mutates the caller's dictionary in place. -/
def ensureTraceproc (kw : EyeKwargs) : EyeKwargs :=
  if (kw.lookup "traceprocessor").isSome then kw
  else ("traceprocessor", TraceProc.defaultProc true "advanced") :: kw

/-- `_merge_eye_and_eeg_data`: insert the default trace processor into
`eye_kwargs` if absent, compute the per-trial offsets (storing them on the
`bigdm` rows and, by whole-column assignment, on `dm`; the post-loop log
line eagerly reads the `dm.eye_offset` column and raises AttributeError when
the loop ran zero iterations), write the gaze and
pupil traces into a NaN-initialized `3 × len(raw)` buffer at the
offset-shifted trigger positions, fill the remaining NaNs of each buffer row
with its nanmedian, append the three channels to the EEG artifact, and
concatenate the blink/saccade annotation intervals with the artifact's
existing ones.  The in-place mutation of `raw` (and of the caller's
`eye_kwargs` and the two DataMatrix objects) is embedded by returning the
updated values; a Python exception aborts the merge. -/
def _merge_eye_and_eeg_data (raw : Raw) (events : List Trigger)
    (dm : List DmRow) (bigdm : List BigRow)
    (min_sacc_dur min_sacc_size min_blink_dur : ℚ) (eye_kwargs : EyeKwargs) :
    Except PyErr (Raw × List BigRow × List DmRow × EyeKwargs) := do
  let kw := ensureTraceproc eye_kwargs
  let (dm2, bigdm2) ← offsetPhase events dm bigdm
  let depth := trialdepth bigdm2
  let init := List.replicate raw.n_samples Val.nan
  let (d0, d1, d2) ← channelLoop depth (trial_trigger events) bigdm2 init init init
  let raw1 := raw.add_channels3 (fillNan d0) (fillNan d1) (fillNan d2)
  let newAnns ← annLoop min_sacc_dur min_sacc_size min_blink_dur
    (trial_trigger events) bigdm2
  .ok ({ raw1 with anns := raw1.anns ++ newAnns }, bigdm2, dm2, kw)

/-- `_dm_to_metadata`: convert the DataMatrix to a plain table, dropping the
series columns (the modelled `DmRow` carries only scalar columns, which are
all kept). -/
def _dm_to_metadata (dm : List DmRow) : Metadata :=
  Metadata.fromDm dm

/-- The inputs of `read_subject`, i.e. the in-memory tables supplied by the
external readers: `eeg` is the `(raw, events)` pair of `_read_eeg_data`
(`none` when the eeg directory is absent), `beh` the behavioral table
(`none` when absent), `eye` the summary DataMatrix of `_read_eye_data`
(`none` when the eye-tracking directory is absent), and `bigdm` the
full-resolution DataMatrix that `parse` returns inside the merge.  The
threshold parameters and `eye_kwargs` carry the source's defaults. -/
structure ReadInput where
  eeg : Option (Raw × List Trigger)
  beh : Option BehTable
  eye : Option (List DmRow)
  bigdm : List BigRow
  min_sacc_dur : ℚ := 10
  min_sacc_size : ℚ := 30
  min_blink_dur : ℚ := 10
  eye_kwargs : EyeKwargs := []
deriving Repr

/-- `read_subject`: merge the eye-tracking data into the EEG artifact when
both are present (the merge runs first), fall back to eye-tracking-derived
metadata when the behavioral table is absent, and finally
`assert n_trials_eeg == n_trials_eye` when both the events and the
DataMatrix are present.  Returns the `(raw, events, metadata)` triple plus
the final state of the caller's `eye_kwargs` dictionary. -/
def read_subject (inp : ReadInput) :
    Except PyErr (Option Raw × Option (List Trigger) × Option Metadata × EyeKwargs) :=
  match inp.eye, inp.eeg with
  | some dm, some (raw, events) => do
    let (raw2, _bigdm2, dm2, kw2) ← _merge_eye_and_eeg_data raw events dm
      inp.bigdm inp.min_sacc_dur inp.min_sacc_size inp.min_blink_dur inp.eye_kwargs
    let metadata := match inp.beh with
      | some m => some (Metadata.fromBeh m)
      | none => some (_dm_to_metadata dm2)
    if events.countP (fun t => decide (128 ≤ t.code)) = dm2.length then
      .ok (some raw2, some events, metadata, kw2)
    else .error .assertionError
  | some dm, none =>
    let metadata := match inp.beh with
      | some m => some (Metadata.fromBeh m)
      | none => some (_dm_to_metadata dm)
    .ok (none, none, metadata, inp.eye_kwargs)
  | none, some (raw, events) =>
    .ok (some raw, some events, inp.beh.map Metadata.fromBeh, inp.eye_kwargs)
  | none, none =>
    .ok (none, none, inp.beh.map Metadata.fromBeh, inp.eye_kwargs)

/-! ### Definitions following the claims' words, for comparison with the
source-derived definitions above. -/

/-- Follows the words of claim C4: the blink iteration stops "at the first
pair containing a non-finite value" — i.e. when either the start or the end
of the pair is NaN — and is otherwise the blink loop of the source. -/
def blinkAnnsClaimed (tsOff t0 : Val) (min_blink_dur : ℚ) :
    List (Val × Val) → List Ann
  | [] => []
  | (st, et) :: rest =>
    if st.isnan || et.isnan then []
    else
      let dur := et.sub st
      if dur.ltB (Val.fin min_blink_dur) then
        blinkAnnsClaimed tsOff t0 min_blink_dur rest
      else
        { onset := (tsOff.add (st.sub t0)).divQ 1000,
          duration := dur.divQ 1000,
          description := "BAD_BLINK" } :: blinkAnnsClaimed tsOff t0 min_blink_dur rest

/-- Follows the words of the amended claim C4: over the longest prefix of
blink pairs whose start value is finite, keep the pairs whose duration is
not below the minimum, and emit one BAD_BLINK per kept pair. -/
def blinkAnnsAmended (tsOff t0 : Val) (min_blink_dur : ℚ)
    (ps : List (Val × Val)) : List Ann :=
  ((ps.takeWhile (fun p => !p.1.isnan)).filter
      (fun p => !((p.2.sub p.1).ltB (Val.fin min_blink_dur)))).map
    (fun p =>
      { onset := (tsOff.add (p.1.sub t0)).divQ 1000,
        duration := (p.2.sub p.1).divQ 1000,
        description := "BAD_BLINK" })

/-- Follows the words of claim C5: the saccade iteration stops "at the first
non-finite end-of-fixation value" — the end time of fixation `n`, which the
source binds to `st` — and is otherwise the saccade loop of the source. -/
def saccAnnsClaimed (tsOff t0 : Val) (min_sacc_dur min_sacc_size : ℚ) :
    List (Val × Val × Val × Val × Val × Val) → List Ann
  | [] => []
  | (st, sx, sy, et, ex, ey) :: rest =>
    if st.isnan then []
    else
      let dur := et.sub st
      if dur.ltB (Val.fin min_sacc_dur) then
        saccAnnsClaimed tsOff t0 min_sacc_dur min_sacc_size rest
      else
        let sizeSq := ((sx.sub ex).mul (sx.sub ex)).add ((sy.sub ey).mul (sy.sub ey))
        if sqrtLtB sizeSq min_sacc_size then
          saccAnnsClaimed tsOff t0 min_sacc_dur min_sacc_size rest
        else
          { onset := (tsOff.add (st.sub t0)).divQ 1000,
            duration := dur.divQ 1000,
            description := "BAD_SACCADE" } ::
            saccAnnsClaimed tsOff t0 min_sacc_dur min_sacc_size rest

/-- Follows the words of the amended claim C5: over the longest prefix of
saccade candidates whose end timestamp (the start of fixation `n + 1`) is
finite, keep the candidates at or above both thresholds, and emit one
BAD_SACCADE per kept candidate. -/
def saccAnnsAmended (tsOff t0 : Val) (min_sacc_dur min_sacc_size : ℚ)
    (cs : List (Val × Val × Val × Val × Val × Val)) : List Ann :=
  ((cs.takeWhile (fun c => !c.2.2.2.1.isnan)).filter
      (fun c => !((c.2.2.2.1.sub c.1).ltB (Val.fin min_sacc_dur)) &&
        !(sqrtLtB (((c.2.1.sub c.2.2.2.2.1).mul (c.2.1.sub c.2.2.2.2.1)).add
            ((c.2.2.1.sub c.2.2.2.2.2).mul (c.2.2.1.sub c.2.2.2.2.2)))
          min_sacc_size))).map
    (fun c =>
      { onset := (tsOff.add (c.1.sub t0)).divQ 1000,
        duration := (c.2.2.2.1.sub c.1).divQ 1000,
        description := "BAD_SACCADE" })

/-! ### Uniform clock shifts (claim C7). -/

/-- Add a constant to an EEG trigger timestamp. -/
def shiftTrigger (c : ℤ) (t : Trigger) : Trigger :=
  { t with timestamp := t.timestamp + c }

/-- Add the same constant to the eye-tracking timestamp of a summary row. -/
def shiftDmRow (c : ℤ) (r : DmRow) : DmRow :=
  { r with t_onset_1 := r.t_onset_1.add (Val.fin (c : ℚ)) }

/-- Add the same constant to every eye-tracking timestamp of a
full-resolution row (the time trace and the blink/fixation event times;
gaze coordinates and pupil sizes are not timestamps). -/
def shiftBigRow (c : ℤ) (r : BigRow) : BigRow :=
  { r with
    ttrace_trial := r.ttrace_trial.map (fun v => v.add (Val.fin (c : ℚ))),
    blinkstlist_trial := r.blinkstlist_trial.map (fun v => v.add (Val.fin (c : ℚ))),
    blinketlist_trial := r.blinketlist_trial.map (fun v => v.add (Val.fin (c : ℚ))),
    fixstlist_trial := r.fixstlist_trial.map (fun v => v.add (Val.fin (c : ℚ))),
    fixetlist_trial := r.fixetlist_trial.map (fun v => v.add (Val.fin (c : ℚ))) }

/-! ### Concrete inputs used by the witnesses and counterexamples. -/

/-- A full-resolution row with one-sample traces and no blinks or
fixations. -/
def exRowSimple : BigRow :=
  { ttrace_trial := [Val.fin 0], xtrace_trial := [Val.fin 1],
    ytrace_trial := [Val.fin 1], ptrace_trial := [Val.fin 1],
    blinkstlist_trial := [], blinketlist_trial := [],
    fixstlist_trial := [], fixetlist_trial := [],
    fixxlist_trial := [], fixylist_trial := [] }

/-- A 4-sample EEG artifact with one pre-existing annotation interval. -/
def exRaw : Raw :=
  { n_samples := 4, sfreq := 1000, channels := [],
    anns := [⟨Val.fin 0, Val.fin 1, "STIM"⟩] }

/-- One trial: an onset trigger at sample 0 and its phase trigger at
sample 2. -/
def exEvs : List Trigger := [⟨0, 0, 128⟩, ⟨2, 0, 1⟩]

/-- The matching one-row summary DataMatrix (second boundary at eye time
2). -/
def exDm : List DmRow := [{ t_onset_1 := Val.fin 2 }]

/-- The full-resolution row of the one-trial example: two-sample traces and
one 20 ms blink. -/
def exBigRow : BigRow :=
  { ttrace_trial := [Val.fin 0, Val.fin 1],
    xtrace_trial := [Val.fin 1, Val.fin 2],
    ytrace_trial := [Val.fin 3, Val.fin 4],
    ptrace_trial := [Val.fin 5, Val.fin 6],
    blinkstlist_trial := [Val.fin 0],
    blinketlist_trial := [Val.fin 20],
    fixstlist_trial := [], fixetlist_trial := [],
    fixxlist_trial := [], fixylist_trial := [] }

/-- The matching one-row full-resolution DataMatrix. -/
def exBigdm : List BigRow := [exBigRow]

/-- A complete `read_subject` input built from the one-trial example. -/
def exInput : ReadInput :=
  { eeg := some (exRaw, exEvs), beh := none, eye := some exDm, bigdm := exBigdm }

/-- The spec's mismatch scenario: four EEG trial-onset codes (each followed
by a phase trigger) against five eye-tracking trial records. -/
def evsC2 : List Trigger :=
  [⟨0, 0, 128⟩, ⟨10, 0, 1⟩, ⟨100, 0, 128⟩, ⟨110, 0, 1⟩,
   ⟨200, 0, 128⟩, ⟨210, 0, 1⟩, ⟨300, 0, 128⟩, ⟨310, 0, 1⟩]

/-- `read_subject` input for the mismatch scenario (4 EEG onsets, 5 eye
trials). -/
def inpC2 : ReadInput :=
  { eeg := some ({ n_samples := 400, sfreq := 1000, channels := [], anns := [] }, evsC2),
    beh := none,
    eye := some (List.replicate 5 { t_onset_1 := Val.fin 10 }),
    bigdm := List.replicate 5 exRowSimple }

/-- A mismatch input in the other direction (2 EEG onsets, 1 eye trial), on
which the merge itself succeeds. -/
def inpC2w : ReadInput :=
  { eeg := some ({ n_samples := 4, sfreq := 1000, channels := [], anns := [] },
      [⟨0, 0, 128⟩, ⟨2, 0, 1⟩, ⟨3, 0, 128⟩, ⟨3, 0, 1⟩]),
    beh := none, eye := some exDm, bigdm := exBigdm }

/-- Two trials whose offsets differ: the EEG deltas are 10 and 12 while both
eye deltas are 5, so the per-trial offsets are 5 and 7. -/
def evsC3 : List Trigger :=
  [⟨0, 0, 128⟩, ⟨10, 0, 1⟩, ⟨100, 0, 128⟩, ⟨112, 0, 1⟩]

/-- The two-trial summary DataMatrix for the differing-offset input. -/
def dmC3 : List DmRow := [{ t_onset_1 := Val.fin 5 }, { t_onset_1 := Val.fin 5 }]

/-- The two-trial full-resolution DataMatrix for the differing-offset
input. -/
def bigdmC3 : List BigRow := [exRowSimple, exRowSimple]

/-- A one-trial input whose pupil trace is entirely NaN while the gaze
traces are finite. -/
def bigdmC6 : List BigRow :=
  [{ ttrace_trial := [Val.fin 0, Val.fin 1],
     xtrace_trial := [Val.fin 1, Val.fin 2],
     ytrace_trial := [Val.fin 3, Val.fin 4],
     ptrace_trial := [Val.nan, Val.nan],
     blinkstlist_trial := [], blinketlist_trial := [],
     fixstlist_trial := [], fixetlist_trial := [],
     fixxlist_trial := [], fixylist_trial := [] }]

/-- An EEG artifact with no channels and no annotation intervals, used by
the all-NaN pupil counterexample. -/
def rawC6 : Raw := { n_samples := 4, sfreq := 1000, channels := [], anns := [] }

/-- A fixation table holding one real fixation followed by NaN padding: the
single saccade candidate pairs the finite end of fixation 0 with the NaN
start of the padding fixation. -/
def rowC5 : BigRow :=
  { exRowSimple with
    fixstlist_trial := [Val.fin 0, Val.nan],
    fixetlist_trial := [Val.fin 10, Val.nan],
    fixxlist_trial := [Val.fin 0, Val.nan],
    fixylist_trial := [Val.fin 0, Val.nan] }

/-- Two fixations whose inferred saccade sits exactly at both thresholds:
duration 10 (the minimum saccade duration) and displacement 30 pixels (the
minimum saccade size). -/
def rowC5b : BigRow :=
  { exRowSimple with
    fixstlist_trial := [Val.fin 0, Val.fin 30],
    fixetlist_trial := [Val.fin 20, Val.fin 50],
    fixxlist_trial := [Val.fin 0, Val.fin 30],
    fixylist_trial := [Val.fin 0, Val.fin 0] }

/-- The one-trial example input with a caller-supplied trace processor. -/
def inpC10w : ReadInput :=
  { exInput with eye_kwargs := [("traceprocessor", TraceProc.custom "mine")] }

/-- The EEG artifact produced by merging the one-trial example: the three
synthesized channels (gap positions filled with each channel's median) and
the blink annotation interval appended after the pre-existing one. -/
def exMergedRaw : Raw :=
  { n_samples := 4, sfreq := 1000,
    channels :=
      [⟨"GazeX", "misc", 1000, [Val.fin 1, Val.fin 2, Val.fin (3/2), Val.fin (3/2)]⟩,
       ⟨"GazeY", "misc", 1000, [Val.fin 3, Val.fin 4, Val.fin (7/2), Val.fin (7/2)]⟩,
       ⟨"PupilSize", "misc", 1000, [Val.fin 5, Val.fin 6, Val.fin (11/2), Val.fin (11/2)]⟩],
    anns := [⟨Val.fin 0, Val.fin 1, "STIM"⟩,
             ⟨Val.fin 0, Val.fin (1/50), "BAD_BLINK"⟩] }

/-- The full-resolution DataMatrix after the example merge (offset 0 stored
on the row). -/
def exMergedBigdm : List BigRow := [{ exBigRow with eye_offset := Val.fin 0 }]

/-- The summary DataMatrix after the example merge. -/
def exMergedDm : List DmRow := [{ t_onset_1 := Val.fin 2, eye_offset := Val.fin 0 }]

/-- The `eye_kwargs` dictionary after the example merge inserted the default
trace processor. -/
def exMergedKw : EyeKwargs := [("traceprocessor", TraceProc.defaultProc true "advanced")]

/-- A `read_subject` input with no eye-tracking data but with EEG and
behavioral data. -/
def inpC9 : ReadInput :=
  { eeg := some (exRaw, exEvs), beh := some [[("condition", "a")]],
    eye := none, bigdm := [] }

/-! ### Helper lemmas. -/

theorem Val.sub_add_add (a b : Val) (c : ℚ) :
    (a.add (Val.fin c)).sub (b.add (Val.fin c)) = a.sub b := by
  cases a <;> cases b <;> simp [Val.add, Val.sub]

theorem shiftBigRow_eye_offset (c : ℤ) (br : BigRow) :
    (shiftBigRow c br).eye_offset = br.eye_offset := rfl

theorem npWhereOnsetsAux_shift (c : ℤ) (evs : List Trigger) :
    ∀ j : ℕ, npWhereOnsetsAux j (evs.map (shiftTrigger c)) = npWhereOnsetsAux j evs := by
  induction evs with
  | nil => intro j; rfl
  | cons t ts ih =>
    intro j
    simp only [List.map_cons, npWhereOnsetsAux, shiftTrigger, ih]

theorem offsetStep_shift (c : ℤ) (evs : List Trigger) (r : DmRow) (br : BigRow)
    (i : ℕ) :
    offsetStep (evs.map (shiftTrigger c)) (shiftDmRow c r) (shiftBigRow c br) i =
      offsetStep evs r br i := by
  simp only [offsetStep, shiftBigRow, shiftDmRow, npWhereOnsets,
    npWhereOnsetsAux_shift, List.head?_map]
  cases h0 : br.ttrace_trial.head? with
  | none => rfl
  | some t0 =>
    simp only [Option.map_some', Val.sub_add_add]
    cases hti : (npWhereOnsetsAux 0 evs).get? i with
    | none => rfl
    | some ti =>
      simp only [List.get?_map]
      cases he0 : evs.get? ti with
      | none => rfl
      | some e0 =>
        cases he1 : evs.get? (ti + 1) with
        | none => rfl
        | some e1 =>
          simp only [Option.map_some', shiftTrigger]
          congr 2
          push_cast
          ring_nf

theorem offsetLoop_shift (c : ℤ) (evs : List Trigger) :
    ∀ (ps : List (DmRow × BigRow)) (i : ℕ),
      offsetLoop (evs.map (shiftTrigger c)) i
          (ps.map (Prod.map (shiftDmRow c) (shiftBigRow c))) =
        (offsetLoop evs i ps).map
          (fun r => (r.1.map (shiftBigRow c), r.2)) := by
  intro ps
  induction ps with
  | nil => intro i; rfl
  | cons p rest ih =>
    intro i
    obtain ⟨r, br⟩ := p
    simp only [List.map_cons, Prod.map, offsetLoop, offsetStep_shift, bind, Except.bind]
    cases hs : offsetStep evs r br i with
    | error e => rfl
    | ok off =>
      rw [ih (i + 1)]
      cases h1 : offsetLoop evs (i + 1) rest with
      | error e => rfl
      | ok pr =>
        obtain ⟨brs, last⟩ := pr
        simp only [Except.map, List.map_cons]
        rfl

theorem get?_zip_eq {α β : Type} :
    ∀ (l1 : List α) (l2 : List β) (i : ℕ) (a : α) (b : β),
      l1.get? i = some a → l2.get? i = some b →
      (l1.zip l2).get? i = some (a, b) := by
  intro l1
  induction l1 with
  | nil => intro l2 i a b h; simp at h
  | cons x xs ih =>
    intro l2 i a b h1 h2
    cases l2 with
    | nil => simp at h2
    | cons y ys =>
      cases i with
      | zero => simp_all
      | succ n => simpa using ih ys n a b (by simpa using h1) (by simpa using h2)

theorem offsetLoop_ok_length (evs : List Trigger) :
    ∀ (ps : List (DmRow × BigRow)) (i : ℕ) (brs : List BigRow) (l : Option Val),
      offsetLoop evs i ps = .ok (brs, l) → brs.length = ps.length := by
  intro ps
  induction ps with
  | nil =>
    intro i brs l h
    simp only [offsetLoop] at h
    cases h
    rfl
  | cons p rest ih =>
    intro i brs l h
    obtain ⟨r, br⟩ := p
    simp only [offsetLoop, bind, Except.bind] at h
    cases hs : offsetStep evs r br i with
    | error e => rw [hs] at h; cases h
    | ok off =>
      rw [hs] at h
      cases h1 : offsetLoop evs (i + 1) rest with
      | error e => rw [h1] at h; cases h
      | ok pr =>
        obtain ⟨brs2, last2⟩ := pr
        rw [h1] at h
        cases h
        simpa using ih (i + 1) brs2 last2 h1

theorem offsetLoop_ok_get (evs : List Trigger) :
    ∀ (ps : List (DmRow × BigRow)) (i : ℕ) (brs : List BigRow) (l : Option Val),
      offsetLoop evs i ps = .ok (brs, l) →
      ∀ (j : ℕ) (r : DmRow) (br : BigRow), ps.get? j = some (r, br) →
        ∃ off, offsetStep evs r br (i + j) = .ok off ∧
          brs.get? j = some { br with eye_offset := off } := by
  intro ps
  induction ps with
  | nil => intro i brs l _ j r br hj; simp at hj
  | cons p rest ih =>
    intro i brs l h j r br hj
    obtain ⟨r0, br0⟩ := p
    simp only [offsetLoop, bind, Except.bind] at h
    cases hs : offsetStep evs r0 br0 i with
    | error e => rw [hs] at h; cases h
    | ok off0 =>
      rw [hs] at h
      cases h1 : offsetLoop evs (i + 1) rest with
      | error e => rw [h1] at h; cases h
      | ok pr =>
        obtain ⟨brs2, last2⟩ := pr
        rw [h1] at h
        cases h
        cases j with
        | zero =>
          simp only [List.get?] at hj
          cases hj
          exact ⟨off0, by simpa using hs, rfl⟩
        | succ n =>
          obtain ⟨off, hstep, hget⟩ := ih (i + 1) brs2 last2 h1 n r br (by simpa using hj)
          exact ⟨off, by rw [show i + (n + 1) = i + 1 + n by omega]; exact hstep,
            by simpa using hget⟩

theorem offsetPhase_ok_inv (evs : List Trigger) (dm : List DmRow)
    (bigdm : List BigRow) (dm2 : List DmRow) (bigdm2 : List BigRow)
    (h : offsetPhase evs dm bigdm = .ok (dm2, bigdm2)) :
    ∃ upd v, offsetLoop evs 0 (dm.zip bigdm) = .ok (upd, some v) ∧
      bigdm2 = upd ++ bigdm.drop upd.length ∧
      dm2 = dm.map (fun r => { r with eye_offset := v }) := by
  simp only [offsetPhase, bind, Except.bind] at h
  cases h1 : offsetLoop evs 0 (dm.zip bigdm) with
  | error e => rw [h1] at h; cases h
  | ok pr =>
    obtain ⟨upd, last⟩ := pr
    rw [h1] at h
    cases last with
    | none => cases h
    | some v =>
      dsimp only at h
      cases h
      exact ⟨upd, v, rfl, rfl, rfl⟩

theorem offsetPhase_ok_dm_length (evs : List Trigger) (dm : List DmRow)
    (bigdm : List BigRow) (dm2 : List DmRow) (bigdm2 : List BigRow)
    (h : offsetPhase evs dm bigdm = .ok (dm2, bigdm2)) :
    dm2.length = dm.length := by
  obtain ⟨upd, v, _, _, hdm⟩ := offsetPhase_ok_inv evs dm bigdm dm2 bigdm2 h
  simp [hdm]

theorem merge_ok_inv (raw : Raw) (evs : List Trigger) (dm : List DmRow)
    (bigdm : List BigRow) (msd mss mbd : ℚ) (kw : EyeKwargs)
    (raw2 : Raw) (bdm : List BigRow) (dmo : List DmRow) (kwo : EyeKwargs)
    (hok : _merge_eye_and_eeg_data raw evs dm bigdm msd mss mbd kw =
      .ok (raw2, bdm, dmo, kwo)) :
    ∃ dm2 bigdm2 d0 d1 d2 newAnns,
      offsetPhase evs dm bigdm = .ok (dm2, bigdm2) ∧
      channelLoop (trialdepth bigdm2) (trial_trigger evs) bigdm2
        (List.replicate raw.n_samples Val.nan) (List.replicate raw.n_samples Val.nan)
        (List.replicate raw.n_samples Val.nan) = .ok (d0, d1, d2) ∧
      annLoop msd mss mbd (trial_trigger evs) bigdm2 = .ok newAnns ∧
      raw2 = { raw.add_channels3 (fillNan d0) (fillNan d1) (fillNan d2) with
               anns := (raw.add_channels3 (fillNan d0) (fillNan d1) (fillNan d2)).anns
                 ++ newAnns } ∧
      bdm = bigdm2 ∧ dmo = dm2 ∧ kwo = ensureTraceproc kw := by
  simp only [_merge_eye_and_eeg_data, bind, Except.bind] at hok
  cases h1 : offsetPhase evs dm bigdm with
  | error e => rw [h1] at hok; cases hok
  | ok pr1 =>
    obtain ⟨dm2, bigdm2⟩ := pr1
    rw [h1] at hok
    dsimp only at hok
    cases h2 : channelLoop (trialdepth bigdm2) (trial_trigger evs) bigdm2
        (List.replicate raw.n_samples Val.nan) (List.replicate raw.n_samples Val.nan)
        (List.replicate raw.n_samples Val.nan) with
    | error e => rw [h2] at hok; cases hok
    | ok pr2 =>
      obtain ⟨d0, d1, d2⟩ := pr2
      rw [h2] at hok
      dsimp only at hok
      cases h3 : annLoop msd mss mbd (trial_trigger evs) bigdm2 with
      | error e => rw [h3] at hok; cases hok
      | ok newAnns =>
        rw [h3] at hok
        dsimp only at hok
        rw [Except.ok.injEq, Prod.mk.injEq, Prod.mk.injEq, Prod.mk.injEq] at hok
        obtain ⟨hr, hb, hd, hk⟩ := hok
        exact ⟨dm2, bigdm2, d0, d1, d2, newAnns, rfl, h2, h3,
          hr.symm, hb.symm, hd.symm, hk.symm⟩

theorem merge_ok_dm_length (raw : Raw) (evs : List Trigger) (dm : List DmRow)
    (bigdm : List BigRow) (msd mss mbd : ℚ) (kw : EyeKwargs)
    (raw2 : Raw) (bdm : List BigRow) (dmo : List DmRow) (kwo : EyeKwargs)
    (hok : _merge_eye_and_eeg_data raw evs dm bigdm msd mss mbd kw =
      .ok (raw2, bdm, dmo, kwo)) :
    dmo.length = dm.length := by
  obtain ⟨dm2, bigdm2, d0, d1, d2, na, hOff, _, _, _, _, hdmo, _⟩ :=
    merge_ok_inv raw evs dm bigdm msd mss mbd kw raw2 bdm dmo kwo hok
  rw [hdmo]
  exact offsetPhase_ok_dm_length evs dm bigdm dm2 bigdm2 hOff

theorem pyBound_le (n : ℕ) (i : ℤ) : pyBound n i ≤ n := by
  unfold pyBound
  split
  · omega
  · omega

theorem pySliceAssign_length (xs : List Val) (a b : ℤ) (src ys : List Val)
    (h : pySliceAssign xs a b src = .ok ys) : ys.length = xs.length := by
  simp only [pySliceAssign] at h
  have hs : pyBound xs.length a ≤ xs.length := pyBound_le _ _
  have he : max (pyBound xs.length a) (pyBound xs.length b) ≤ xs.length := by
    have := pyBound_le xs.length b
    omega
  have hse : pyBound xs.length a ≤ max (pyBound xs.length a) (pyBound xs.length b) :=
    le_max_left _ _
  split at h
  · cases h
    simp only [List.length_append, List.length_take, List.length_drop]
    omega
  · split at h
    · cases h
      simp only [List.length_append, List.length_take, List.length_replicate,
        List.length_drop]
      omega
    · cases h

theorem channelLoop_length (depth : ℕ) :
    ∀ (ts : List Trigger) (rs : List BigRow) (d0 d1 d2 e0 e1 e2 : List Val),
      channelLoop depth ts rs d0 d1 d2 = .ok (e0, e1, e2) →
      e0.length = d0.length ∧ e1.length = d1.length ∧ e2.length = d2.length := by
  intro ts
  induction ts with
  | nil =>
    intro rs d0 d1 d2 e0 e1 e2 h
    simp only [channelLoop] at h
    cases h
    exact ⟨rfl, rfl, rfl⟩
  | cons t ts2 ih =>
    intro rs d0 d1 d2 e0 e1 e2 h
    cases rs with
    | nil =>
      simp only [channelLoop] at h
      cases h
      exact ⟨rfl, rfl, rfl⟩
    | cons r rs2 =>
      simp only [channelLoop, bind, Except.bind] at h
      cases hti : ((Val.fin (t.timestamp : ℚ)).add r.eye_offset).toSliceIdx with
      | none => rw [hti] at h; cases h
      | some ti =>
        rw [hti] at h
        dsimp only at h
        cases h0 : pySliceAssign d0 ti (ti + depth) r.xtrace_trial with
        | error e => rw [h0] at h; cases h
        | ok d0a =>
          rw [h0] at h
          dsimp only at h
          cases h1 : pySliceAssign d1 ti (ti + depth) r.ytrace_trial with
          | error e => rw [h1] at h; cases h
          | ok d1a =>
            rw [h1] at h
            dsimp only at h
            cases h2 : pySliceAssign d2 ti (ti + depth) r.ptrace_trial with
            | error e => rw [h2] at h; cases h
            | ok d2a =>
              rw [h2] at h
              dsimp only at h
              obtain ⟨l0, l1, l2⟩ := ih rs2 d0a d1a d2a e0 e1 e2 h
              exact ⟨l0.trans (pySliceAssign_length _ _ _ _ _ h0),
                l1.trans (pySliceAssign_length _ _ _ _ _ h1),
                l2.trans (pySliceAssign_length _ _ _ _ _ h2)⟩

theorem fillNan_length (xs : List Val) : (fillNan xs).length = xs.length := by
  simp [fillNan]

theorem insertSorted_length (q : ℚ) :
    ∀ xs : List ℚ, (insertSorted q xs).length = xs.length + 1 := by
  intro xs
  induction xs with
  | nil => rfl
  | cons x xs2 ih =>
    simp only [insertSorted]
    split
    · rfl
    · simp [ih]

theorem sortQ_length : ∀ xs : List ℚ, (sortQ xs).length = xs.length := by
  intro xs
  induction xs with
  | nil => rfl
  | cons x xs2 ih => simp [sortQ, insertSorted_length, ih]

theorem nanmedian_fin (xs : List Val) (q : ℚ) (hq : Val.fin q ∈ xs) :
    ∃ m, nanmedian xs = Val.fin m := by
  simp only [nanmedian]
  have hmem : q ∈ xs.filterMap
      (fun v => match v with | .fin q => some q | .nan => none) := by
    exact List.mem_filterMap.mpr ⟨Val.fin q, hq, rfl⟩
  have hne : (xs.filterMap
      (fun v => match v with | .fin q => some q | .nan => none)).length ≠ 0 := by
    intro h0
    rw [List.length_eq_zero] at h0
    rw [h0] at hmem
    exact absurd hmem (List.not_mem_nil q)
  rw [sortQ_length]
  split
  · omega
  · split
    · exact ⟨_, rfl⟩
    · exact ⟨_, rfl⟩

theorem fillNan_no_nan (xs : List Val) (q : ℚ) (hq : Val.fin q ∈ xs) :
    ∀ v ∈ fillNan xs, v ≠ Val.nan := by
  obtain ⟨m, hm⟩ := nanmedian_fin xs q hq
  intro v hv
  simp only [fillNan, List.mem_map] at hv
  obtain ⟨w, _, hw⟩ := hv
  subst hw
  split
  · rw [hm]; exact fun h => Val.noConfusion h
  · rename_i hnn
    cases w with
    | nan => exact absurd rfl hnn
    | fin x => exact fun h => Val.noConfusion h

theorem ensureTraceproc_of_present (kw : EyeKwargs)
    (h : (kw.lookup "traceprocessor").isSome = true) :
    ensureTraceproc kw = kw := by
  simp [ensureTraceproc, h]

theorem blinkAnns_eq_amended (tsOff t0 : Val) (mbd : ℚ) :
    ∀ ps : List (Val × Val),
      blinkAnns tsOff t0 mbd ps = blinkAnnsAmended tsOff t0 mbd ps := by
  intro ps
  induction ps with
  | nil => rfl
  | cons p rest ih =>
    obtain ⟨st, et⟩ := p
    cases hst : st.isnan with
    | true => simp [blinkAnns, blinkAnnsAmended, hst]
    | false =>
      cases hd : (et.sub st).ltB (Val.fin mbd) with
      | true =>
        simp only [blinkAnns, blinkAnnsAmended, hst, hd, Bool.not_true,
          Bool.not_false, if_true, if_false, List.takeWhile_cons, List.filter_cons]
        simpa [blinkAnnsAmended] using ih
      | false =>
        simp only [blinkAnns, blinkAnnsAmended, hst, hd, Bool.not_true,
          Bool.not_false, if_true, if_false, List.takeWhile_cons, List.filter_cons,
          List.map_cons]
        simpa [blinkAnnsAmended] using ih

theorem saccAnns_eq_amended (tsOff t0 : Val) (msd mss : ℚ) :
    ∀ cs : List (Val × Val × Val × Val × Val × Val),
      saccAnns tsOff t0 msd mss cs = saccAnnsAmended tsOff t0 msd mss cs := by
  intro cs
  induction cs with
  | nil => rfl
  | cons cand rest ih =>
    obtain ⟨st, sx, sy, et, ex, ey⟩ := cand
    cases het : et.isnan with
    | true => simp [saccAnns, saccAnnsAmended, het]
    | false =>
      cases hd : (et.sub st).ltB (Val.fin msd) with
      | true =>
        simp only [saccAnns, saccAnnsAmended, het, hd, Bool.not_true, Bool.not_false,
          if_true, if_false, List.takeWhile_cons, List.filter_cons, Bool.false_and]
        simpa [saccAnnsAmended] using ih
      | false =>
        cases hs : sqrtLtB (((sx.sub ex).mul (sx.sub ex)).add
            ((sy.sub ey).mul (sy.sub ey))) mss with
        | true =>
          simp only [saccAnns, saccAnnsAmended, het, hd, hs, Bool.not_true,
            Bool.not_false, if_true, if_false, List.takeWhile_cons, List.filter_cons,
            Bool.true_and, Bool.and_false]
          simpa [saccAnnsAmended] using ih
        | false =>
          simp only [saccAnns, saccAnnsAmended, het, hd, hs, Bool.not_true,
            Bool.not_false, if_true, if_false, List.takeWhile_cons, List.filter_cons,
            Bool.true_and, List.map_cons]
          simpa [saccAnnsAmended] using ih

/-! ### Claim theorems. -/

/-- C1: for every trial index `i` processed by the merge, the per-trial
offset stored on the full-resolution row equals
`(t1_eeg - t0_eeg) - (trial.second_boundary_timestamp -
trial.first_sample_timestamp)`, where `t0_eeg`/`t1_eeg` are the timestamps
of the EEG trigger pair bounding trial `i` (the `i`-th trial-onset trigger
and the event following it), the first-sample timestamp is the first entry
of the trial's full-resolution time trace, and the second-boundary
timestamp is the trial's `t_onset_1`. -/
theorem C1_offset_per_trial (raw : Raw) (evs : List Trigger) (dm : List DmRow)
    (bigdm : List BigRow) (msd mss mbd : ℚ) (kw : EyeKwargs)
    (raw2 : Raw) (bdm : List BigRow) (dmo : List DmRow) (kwo : EyeKwargs)
    (hok : _merge_eye_and_eeg_data raw evs dm bigdm msd mss mbd kw =
      .ok (raw2, bdm, dmo, kwo))
    (i : ℕ) (r : DmRow) (br : BigRow)
    (hr : dm.get? i = some r) (hbr : bigdm.get? i = some br)
    (t0v : Val) (h0 : br.ttrace_trial.head? = some t0v)
    (ti : ℕ) (hti : (npWhereOnsets evs).get? i = some ti)
    (e0 e1 : Trigger) (he0 : evs.get? ti = some e0)
    (he1 : evs.get? (ti + 1) = some e1) :
    bdm.get? i = some { br with eye_offset :=
      (Val.fin ((e1.timestamp - e0.timestamp : ℤ) : ℚ)).sub (r.t_onset_1.sub t0v) } := by
  obtain ⟨dm2, bigdm2, d0, d1, d2, na, hOff, _, _, _, hb, _, _⟩ :=
    merge_ok_inv raw evs dm bigdm msd mss mbd kw raw2 bdm dmo kwo hok
  obtain ⟨upd, v, hLoop, hb2, _⟩ := offsetPhase_ok_inv evs dm bigdm dm2 bigdm2 hOff
  have hz := get?_zip_eq dm bigdm i r br hr hbr
  obtain ⟨off, hStep, hGet⟩ :=
    offsetLoop_ok_get evs (dm.zip bigdm) 0 upd (some v) hLoop i r br hz
  rw [zero_add] at hStep
  simp only [offsetStep, h0, hti, he0, he1] at hStep
  rw [Except.ok.injEq] at hStep
  obtain ⟨hlt, -⟩ := List.get?_eq_some.mp hGet
  rw [hb, hb2, List.get?_append hlt, hGet, hStep]

/-- C2 (counterexample): on the spec's mismatch scenario — four EEG
trial-onset codes against five eye-tracking trial records — `read_subject`
does invoke the merge, which fails with an IndexError while looking up the
fifth trial's trigger pair; the failure surfaced to the caller is not the
trial-count assertion error, and the merge is not rejected beforehand. -/
theorem C2_counterexample :
    read_subject inpC2 = .error PyErr.indexError ∧
      read_subject inpC2 ≠ .error PyErr.assertionError := by
  constructor
  · with_unfolding_all rfl
  · intro h
    rw [show read_subject inpC2 = .error PyErr.indexError from by
      with_unfolding_all rfl] at h
    exact PyErr.noConfusion (Except.error.inj h)

/-- C2 (amended): when both EEG and eye-tracking data are present and the
EEG trial-onset count differs from the eye-tracking trial count,
`read_subject` surfaces an error to the caller — but the merge is invoked
before the count check: the error is either one raised inside the merge, or,
whenever the merge completes, the assertion error of the post-merge
trial-count check. -/
theorem C2_mismatch_errors (inp : ReadInput) (raw : Raw) (evs : List Trigger)
    (dm : List DmRow)
    (heeg : inp.eeg = some (raw, evs)) (heye : inp.eye = some dm)
    (hmm : evs.countP (fun t => decide (128 ≤ t.code)) ≠ dm.length) :
    (∃ err, read_subject inp = .error err) ∧
      ∀ raw2 bdm dmo kwo,
        _merge_eye_and_eeg_data raw evs dm inp.bigdm inp.min_sacc_dur
          inp.min_sacc_size inp.min_blink_dur inp.eye_kwargs =
            .ok (raw2, bdm, dmo, kwo) →
        read_subject inp = .error .assertionError := by
  cases hM : _merge_eye_and_eeg_data raw evs dm inp.bigdm inp.min_sacc_dur
      inp.min_sacc_size inp.min_blink_dur inp.eye_kwargs with
  | error e =>
    constructor
    · exact ⟨e, by simp only [read_subject, heeg, heye, bind, Except.bind, hM]⟩
    · intro raw2 bdm dmo kwo hok
      exact Except.noConfusion hok
  | ok out =>
    obtain ⟨raw2, bdm, dmo, kwo⟩ := out
    have hlen : dmo.length = dm.length :=
      merge_ok_dm_length raw evs dm inp.bigdm inp.min_sacc_dur inp.min_sacc_size
        inp.min_blink_dur inp.eye_kwargs raw2 bdm dmo kwo hM
    have hread : read_subject inp = .error .assertionError := by
      simp only [read_subject, heeg, heye, bind, Except.bind, hM]
      rw [if_neg (by rw [hlen]; exact hmm)]
    exact ⟨⟨_, hread⟩, fun _ _ _ _ _ => hread⟩

/-- C2 witness: a concrete mismatch (two EEG onsets, one eye-tracking trial)
on which `read_subject` surfaces an error. -/
theorem C2_mismatch_errors_witness :
    (([⟨0, 0, 128⟩, ⟨2, 0, 1⟩, ⟨3, 0, 128⟩, ⟨3, 0, 1⟩] : List Trigger).countP
        (fun t => decide (128 ≤ t.code)) ≠ exDm.length) ∧
      ∃ err, read_subject inpC2w = .error err :=
  ⟨by decide, (C2_mismatch_errors inpC2w _ _ _ rfl rfl (by decide)).1⟩

/-- C3: evaluating the offset phase on two trials whose offsets are 5 and 7
shows the bug: the per-trial storage on the full-resolution rows is `[5, 7]`,
but the whole-column assignment `dm.eye_offset = eye_offset` leaves the
aggregate table's offset column at the *last* trial's offset in every row,
`[7, 7]` — row 0 does not hold its own offset 5. -/
theorem C3_dm_column_holds_last_offset :
    (offsetPhase evsC3 dmC3 bigdmC3).map
      (fun p => (p.1.map DmRow.eye_offset, p.2.map BigRow.eye_offset)) =
    .ok ([Val.fin 7, Val.fin 7], [Val.fin 5, Val.fin 7]) := by
  with_unfolding_all rfl

/-- C4 (counterexample): a blink pair whose start is finite but whose end is
NaN — a "pair containing a non-finite value" — does not stop the code's
iteration: the code emits a BAD_BLINK with NaN duration for it, while the
claimed stop-at-any-non-finite rule emits nothing. -/
theorem C4_counterexample :
    blinkAnns (Val.fin 0) (Val.fin 0) 10 [(Val.fin 100, Val.nan)] =
      [{ onset := Val.fin (1/10), duration := Val.nan, description := "BAD_BLINK" }] ∧
    blinkAnnsClaimed (Val.fin 0) (Val.fin 0) 10 [(Val.fin 100, Val.nan)] = [] := by
  constructor
  · with_unfolding_all rfl
  · with_unfolding_all rfl

/-- C4 (amended): blink annotation iterates the (start, end) pairs stopping
at the first pair whose *start* value is non-finite, skips blinks strictly
shorter than the minimum duration (a blink exactly at the threshold is
emitted), and emits BAD_BLINK intervals with the claimed onset/duration
conversion; the spec's scenario `[(100, 105), (nan, nan)]` with
`min_blink_dur = 10` yields zero annotations. -/
theorem C4_blink_behavior :
    (∀ (tsOff t0 : Val) (mbd : ℚ) (ps : List (Val × Val)),
      blinkAnns tsOff t0 mbd ps = blinkAnnsAmended tsOff t0 mbd ps) ∧
    (∀ tsOff t0 : Val,
      blinkAnns tsOff t0 10 [(Val.fin 100, Val.fin 105), (Val.nan, Val.nan)] = []) ∧
    blinkAnns (Val.fin 0) (Val.fin 0) 10 [(Val.fin 0, Val.fin 10)] =
      [{ onset := Val.fin 0, duration := Val.fin (1/100), description := "BAD_BLINK" }] := by
  refine ⟨fun tsOff t0 mbd ps => blinkAnns_eq_amended tsOff t0 mbd ps, ?_, ?_⟩
  · intro tsOff t0
    have h5 : (Val.fin 105).sub (Val.fin 100) = Val.fin 5 := by
      with_unfolding_all rfl
    simp only [blinkAnns, Val.isnan, h5, Val.ltB]
    norm_num
  · with_unfolding_all rfl

/-- C5 (counterexample): with one real fixation followed by NaN padding, the
single saccade candidate pairs the finite end of fixation 0 with the NaN
start of fixation 1.  No end-of-fixation value among the candidates is
non-finite, yet the code stops (it tests the *start* of fixation `n + 1`)
and emits nothing, while the claimed stop-at-non-finite-end-of-fixation rule
would emit a BAD_SACCADE for the candidate. -/
theorem C5_counterexample :
    saccAnns (Val.fin 0) (Val.fin 0) 10 30 (saccCands rowC5) = [] ∧
    saccAnnsClaimed (Val.fin 0) (Val.fin 0) 10 30 (saccCands rowC5) =
      [{ onset := Val.fin (1/100), duration := Val.nan,
         description := "BAD_SACCADE" }] := by
  constructor
  · with_unfolding_all rfl
  · with_unfolding_all rfl

/-- C5 (amended): a saccade is inferred between the end of fixation `n` and
the start of fixation `n + 1`; iteration stops at the first candidate whose
*end* timestamp — the start of fixation `n + 1` — is non-finite; a candidate
is skipped when its duration is strictly below the minimum saccade duration
or its Euclidean displacement is strictly below the minimum saccade size,
so a candidate exactly at both thresholds (duration 10, displacement 30) is
emitted with the claimed onset/duration conversion. -/
theorem C5_sacc_behavior :
    (∀ (tsOff t0 : Val) (msd mss : ℚ)
        (cs : List (Val × Val × Val × Val × Val × Val)),
      saccAnns tsOff t0 msd mss cs = saccAnnsAmended tsOff t0 msd mss cs) ∧
    saccAnns (Val.fin 0) (Val.fin 0) 10 30 (saccCands rowC5b) =
      [{ onset := Val.fin (1/50), duration := Val.fin (1/100),
         description := "BAD_SACCADE" }] := by
  refine ⟨fun tsOff t0 msd mss cs => saccAnns_eq_amended tsOff t0 msd mss cs, ?_⟩
  with_unfolding_all rfl

/-- C6 (counterexample): a merge whose pupil trace is entirely NaN completes
successfully and appends the three channels, but the PupilSize channel still
consists of missing values after the median fill (the nanmedian of an
all-NaN buffer is NaN), contradicting "no missing values remaining". -/
theorem C6_counterexample :
    (_merge_eye_and_eeg_data rawC6 exEvs exDm bigdmC6 10 30 10 []).map
      (fun o => o.1.channels.map (fun ch => (ch.name, ch.data))) =
    .ok [("GazeX", [Val.fin 1, Val.fin 2, Val.fin (3/2), Val.fin (3/2)]),
         ("GazeY", [Val.fin 3, Val.fin 4, Val.fin (7/2), Val.fin (7/2)]),
         ("PupilSize", [Val.nan, Val.nan, Val.nan, Val.nan])] := by
  with_unfolding_all rfl

/-- C6 (amended): a successful merge appends exactly the three channels
GazeX, GazeY, PupilSize to the EEG artifact at its sampling rate, each of
length `len(raw)`; each channel is the NaN-initialized buffer written by the
channel loop at the offset-shifted trigger positions and then gap-filled
with its own nanmedian (computed over the written samples only), and a
channel that received at least one finite sample has no missing values
remaining. -/
theorem C6_channels (raw : Raw) (evs : List Trigger) (dm : List DmRow)
    (bigdm : List BigRow) (msd mss mbd : ℚ) (kw : EyeKwargs)
    (raw2 : Raw) (bdm : List BigRow) (dmo : List DmRow) (kwo : EyeKwargs)
    (hok : _merge_eye_and_eeg_data raw evs dm bigdm msd mss mbd kw =
      .ok (raw2, bdm, dmo, kwo)) :
    ∃ d0 d1 d2,
      channelLoop (trialdepth bdm) (trial_trigger evs) bdm
        (List.replicate raw.n_samples Val.nan)
        (List.replicate raw.n_samples Val.nan)
        (List.replicate raw.n_samples Val.nan) = .ok (d0, d1, d2) ∧
      raw2.channels = raw.channels ++
        [⟨"GazeX", "misc", raw.sfreq, fillNan d0⟩,
         ⟨"GazeY", "misc", raw.sfreq, fillNan d1⟩,
         ⟨"PupilSize", "misc", raw.sfreq, fillNan d2⟩] ∧
      (fillNan d0).length = raw.n_samples ∧
      (fillNan d1).length = raw.n_samples ∧
      (fillNan d2).length = raw.n_samples ∧
      ((∃ q, Val.fin q ∈ d0) → ∀ v ∈ fillNan d0, v ≠ Val.nan) ∧
      ((∃ q, Val.fin q ∈ d1) → ∀ v ∈ fillNan d1, v ≠ Val.nan) ∧
      ((∃ q, Val.fin q ∈ d2) → ∀ v ∈ fillNan d2, v ≠ Val.nan) := by
  obtain ⟨dm2, bigdm2, d0, d1, d2, na, hOff, hCh, hAnn, hr, hb, hd, hk⟩ :=
    merge_ok_inv raw evs dm bigdm msd mss mbd kw raw2 bdm dmo kwo hok
  subst hb
  obtain ⟨l0, l1, l2⟩ := channelLoop_length (trialdepth bdm) (trial_trigger evs)
    bdm (List.replicate raw.n_samples Val.nan) (List.replicate raw.n_samples Val.nan)
    (List.replicate raw.n_samples Val.nan) d0 d1 d2 hCh
  refine ⟨d0, d1, d2, hCh, ?_, ?_, ?_, ?_, ?_, ?_, ?_⟩
  · rw [hr]
    simp [Raw.add_channels3]
  · rw [fillNan_length, l0, List.length_replicate]
  · rw [fillNan_length, l1, List.length_replicate]
  · rw [fillNan_length, l2, List.length_replicate]
  · rintro ⟨q, hq⟩
    exact fillNan_no_nan d0 q hq
  · rintro ⟨q, hq⟩
    exact fillNan_no_nan d1 q hq
  · rintro ⟨q, hq⟩
    exact fillNan_no_nan d2 q hq

/-- C6 witness: the one-trial example merge succeeds, and its channels are
the three filled buffers with no missing value remaining (every buffer
received finite samples). -/
theorem C6_channels_witness :
    (_merge_eye_and_eeg_data exRaw exEvs exDm exBigdm 10 30 10 [] =
      .ok (exMergedRaw, exMergedBigdm, exMergedDm, exMergedKw)) ∧
    ∃ d0 d1 d2,
      channelLoop (trialdepth exMergedBigdm) (trial_trigger exEvs) exMergedBigdm
        (List.replicate exRaw.n_samples Val.nan)
        (List.replicate exRaw.n_samples Val.nan)
        (List.replicate exRaw.n_samples Val.nan) = .ok (d0, d1, d2) ∧
      exMergedRaw.channels = exRaw.channels ++
        [⟨"GazeX", "misc", exRaw.sfreq, fillNan d0⟩,
         ⟨"GazeY", "misc", exRaw.sfreq, fillNan d1⟩,
         ⟨"PupilSize", "misc", exRaw.sfreq, fillNan d2⟩] ∧
      (fillNan d0).length = exRaw.n_samples ∧
      (fillNan d1).length = exRaw.n_samples ∧
      (fillNan d2).length = exRaw.n_samples ∧
      ((∃ q, Val.fin q ∈ d0) → ∀ v ∈ fillNan d0, v ≠ Val.nan) ∧
      ((∃ q, Val.fin q ∈ d1) → ∀ v ∈ fillNan d1, v ≠ Val.nan) ∧
      ((∃ q, Val.fin q ∈ d2) → ∀ v ∈ fillNan d2, v ≠ Val.nan) :=
  ⟨by with_unfolding_all rfl,
   C6_channels exRaw exEvs exDm exBigdm 10 30 10 [] exMergedRaw exMergedBigdm
     exMergedDm exMergedKw (by with_unfolding_all rfl)⟩

/-- C7: the per-trial offsets are invariant under adding one shared constant
to all EEG trigger timestamps and to all eye-tracking timestamps
(re-basing both clocks together leaves every computed offset, and the
final column value, unchanged). -/
theorem C7_offset_shift_invariant (c : ℤ) (evs : List Trigger)
    (dm : List DmRow) (bigdm : List BigRow) :
    (offsetLoop (evs.map (shiftTrigger c)) 0
        ((dm.map (shiftDmRow c)).zip (bigdm.map (shiftBigRow c)))).map
      (fun r => (r.1.map BigRow.eye_offset, r.2)) =
    (offsetLoop evs 0 (dm.zip bigdm)).map
      (fun r => (r.1.map BigRow.eye_offset, r.2)) := by
  rw [List.zip_map, offsetLoop_shift]
  cases offsetLoop evs 0 (dm.zip bigdm) with
  | error e => rfl
  | ok pr =>
    obtain ⟨brs, last⟩ := pr
    simp [Except.map, List.map_map, Function.comp_def, shiftBigRow]

/-- C8: the BAD_BLINK / BAD_SACCADE intervals produced by the merge are
concatenated with the annotation intervals already present on the EEG
artifact: after a successful merge the artifact's annotation list is the
pre-existing list followed by the new intervals. -/
theorem C8_anns_appended (raw : Raw) (evs : List Trigger) (dm : List DmRow)
    (bigdm : List BigRow) (msd mss mbd : ℚ) (kw : EyeKwargs)
    (raw2 : Raw) (bdm : List BigRow) (dmo : List DmRow) (kwo : EyeKwargs)
    (hok : _merge_eye_and_eeg_data raw evs dm bigdm msd mss mbd kw =
      .ok (raw2, bdm, dmo, kwo)) :
    ∃ tail, raw2.anns = raw.anns ++ tail := by
  obtain ⟨dm2, bigdm2, d0, d1, d2, na, hOff, hCh, hAnn, hr, hb, hd, hk⟩ :=
    merge_ok_inv raw evs dm bigdm msd mss mbd kw raw2 bdm dmo kwo hok
  refine ⟨na, ?_⟩
  rw [hr]
  simp [Raw.add_channels3]

/-- C8 witness: merging the one-trial example keeps the pre-existing STIM
interval and appends the new intervals after it. -/
theorem C8_anns_appended_witness :
    (_merge_eye_and_eeg_data exRaw exEvs exDm exBigdm 10 30 10 [] =
      .ok (exMergedRaw, exMergedBigdm, exMergedDm, exMergedKw)) ∧
    ∃ tail, exMergedRaw.anns = exRaw.anns ++ tail :=
  ⟨by with_unfolding_all rfl,
   C8_anns_appended exRaw exEvs exDm exBigdm 10 30 10 [] exMergedRaw
     exMergedBigdm exMergedDm exMergedKw (by with_unfolding_all rfl)⟩

/-- C9: when the eye-tracking directory does not exist (`dm` is `None`),
`read_subject` returns the EEG artifact unchanged (no synthesized channels,
no new annotation intervals), the events unchanged, and metadata sourced
purely from the behavioral table — or `None` when that is absent too — and
the merge is skipped. -/
theorem C9_no_eye_dir (inp : ReadInput) (h : inp.eye = none) :
    read_subject inp = .ok (inp.eeg.map Prod.fst, inp.eeg.map Prod.snd,
      inp.beh.map Metadata.fromBeh, inp.eye_kwargs) := by
  cases he : inp.eeg with
  | none => simp [read_subject, h, he]
  | some pr =>
    obtain ⟨raw, evs⟩ := pr
    simp [read_subject, h, he]

/-- C9 witness: with EEG and behavioral data present but no eye-tracking
data, the returned artifact and events are the inputs and the metadata is
the behavioral table. -/
theorem C9_no_eye_dir_witness :
    inpC9.eye = none ∧
    read_subject inpC9 = .ok (inpC9.eeg.map Prod.fst, inpC9.eeg.map Prod.snd,
      inpC9.beh.map Metadata.fromBeh, inpC9.eye_kwargs) :=
  ⟨rfl, C9_no_eye_dir inpC9 rfl⟩

/-- C10 (counterexample): on the one-trial example — whose merge succeeds
and whose `eye_kwargs` dictionary lacks a `traceprocessor` entry —
`read_subject` returns successfully, yet the caller's dictionary has been
mutated: the merge inserted the default trace processor, so the dictionary
seen after the call differs from the empty dictionary supplied. -/
theorem C10_counterexample :
    (read_subject exInput).map (fun o => o.2.2.2) =
      .ok [("traceprocessor", TraceProc.defaultProc true "advanced")] ∧
    exInput.eye_kwargs = [] := by
  constructor
  · with_unfolding_all rfl
  · rfl

/-- C10 (amended): the merge leaves the caller's `eye_kwargs` dictionary
unchanged exactly when it already contains a `traceprocessor` entry; when it
lacks one, the merge inserts the default trace processor into the caller's
dictionary (a mutation that, through the shared mutable default argument,
persists across `read_subject` invocations). -/
theorem C10_kwargs_preserved (inp : ReadInput)
    (htp : (inp.eye_kwargs.lookup "traceprocessor").isSome = true)
    (r : Option Raw) (e : Option (List Trigger)) (m : Option Metadata)
    (k : EyeKwargs) (hok : read_subject inp = .ok (r, e, m, k)) :
    k = inp.eye_kwargs := by
  cases hy : inp.eye with
  | none =>
    cases he : inp.eeg with
    | none =>
      simp only [read_subject, hy, he, Except.ok.injEq, Prod.mk.injEq] at hok
      exact hok.2.2.2.symm
    | some pr =>
      obtain ⟨raw, evs⟩ := pr
      simp only [read_subject, hy, he, Except.ok.injEq, Prod.mk.injEq] at hok
      exact hok.2.2.2.symm
  | some dm =>
    cases he : inp.eeg with
    | none =>
      simp only [read_subject, hy, he, Except.ok.injEq, Prod.mk.injEq] at hok
      exact hok.2.2.2.symm
    | some pr =>
      obtain ⟨raw, evs⟩ := pr
      cases hM : _merge_eye_and_eeg_data raw evs dm inp.bigdm inp.min_sacc_dur
          inp.min_sacc_size inp.min_blink_dur inp.eye_kwargs with
      | error er =>
        simp only [read_subject, hy, he, bind, Except.bind, hM] at hok
        exact Except.noConfusion hok
      | ok out =>
        obtain ⟨raw2, bdm, dmo, kwo⟩ := out
        obtain ⟨-, -, -, -, -, -, -, -, -, -, -, -, hkw⟩ :=
          merge_ok_inv raw evs dm inp.bigdm inp.min_sacc_dur inp.min_sacc_size
            inp.min_blink_dur inp.eye_kwargs raw2 bdm dmo kwo hM
        simp only [read_subject, hy, he, bind, Except.bind, hM] at hok
        split at hok
        · rw [Except.ok.injEq, Prod.mk.injEq, Prod.mk.injEq, Prod.mk.injEq] at hok
          obtain ⟨-, -, -, hk⟩ := hok
          rw [← hk, hkw, ensureTraceproc_of_present _ htp]
        · exact Except.noConfusion hok

/-- C10 witness: with a caller-supplied trace processor already present, the
dictionary returned by a successful `read_subject` call is the caller's
dictionary. -/
theorem C10_kwargs_preserved_witness :
    (inpC10w.eye_kwargs.lookup "traceprocessor").isSome = true ∧
    [("traceprocessor", TraceProc.custom "mine")] = inpC10w.eye_kwargs :=
  ⟨rfl, C10_kwargs_preserved inpC10w rfl (some exMergedRaw) (some exEvs)
    (some (Metadata.fromDm exMergedDm))
    [("traceprocessor", TraceProc.custom "mine")] (by with_unfolding_all rfl)⟩

/-- C1 witness: in the one-trial example the stored offset equals
`(t1_eeg - t0_eeg) - (t_onset_1 - ttrace[0]) = (2 - 0) - (2 - 0) = 0`. -/
theorem C1_offset_per_trial_witness :
    (npWhereOnsets exEvs).get? 0 = some 0 ∧
    exMergedBigdm.get? 0 = some { exBigRow with
      eye_offset := Val.sub (Val.fin ((2 - 0 : ℤ) : ℚ))
        (Val.sub (Val.fin 2) (Val.fin 0)) } :=
  ⟨rfl, C1_offset_per_trial exRaw exEvs exDm exBigdm 10 30 10 []
    exMergedRaw exMergedBigdm exMergedDm exMergedKw (by with_unfolding_all rfl)
    0 { t_onset_1 := Val.fin 2 } exBigRow rfl rfl (Val.fin 0) rfl 0 rfl
    ⟨0, 0, 128⟩ ⟨2, 0, 1⟩ rfl rfl⟩
